import Mathlib

/-!
Verification of the AccountsForge Pro authorization / approval-workflow core.

This file shallowly embeds the parts of the repository that the spec's
testable properties are about:

* the row-level-security (RLS) policies created by the SQL scripts
  (`complete_database_fix.sql`, `fix_all_user_issues.sql`,
  `fix_employee_registration.sql`, the Supabase migrations and the
  unnamed fix scripts).  PostgreSQL combines the (all permissive)
  policies of one command on one table with OR, and an RLS `USING`
  clause silently filters rows out of an UPDATE rather than raising an
  error.  Every policy that some script creates and no script later
  drops is part of the final policy set; the only `DROP POLICY`
  statements in the repository target the `profiles` table and five
  `claims` policies (which are recreated immediately afterwards).
* the `handle_revenue_approval` trigger and
  `calculate_commission_amount` function of
  `complete_database_fix.sql`, together with the `UNIQUE(revenue_id)`
  constraint on the `commissions` table,
* the duplicate-profile cleanup `DELETE` of `fix_all_user_issues.sql`,
* the `handle_new_user` signup trigger of `fix_all_user_issues.sql`
  (the `ON CONFLICT (user_id) DO NOTHING` version),
* the `handleStatusUpdate` function and the Mark-Paid button guard of
  `src/pages/ClaimsPage.tsx`.

Monetary amounts (`DECIMAL(10,2)`) are represented exactly as integer
cents, commission rates (`DECIMAL(5,2)`, a percentage) as integer
hundredths of a percent; both are nonnegative in the database (the
tables check `amount > 0` and rates default to `5.00`).
-/

namespace AccountsForge

/-- The role tag of a profile row: `CHECK (role IN ('employee', 'salesman', 'admin'))`. -/
inductive Role where
  | admin
  | salesman
  | employee
deriving DecidableEq, Repr

/-- Status of expenses and revenues: `CHECK (status IN ('pending', 'approved', 'rejected'))`. -/
inductive RStatus where
  | pending
  | approved
  | rejected
deriving DecidableEq, Repr

/-- Status of claims: `CHECK (status IN ('pending', 'approved', 'rejected', 'paid'))`. -/
inductive CStatus where
  | pending
  | approved
  | rejected
  | paid
deriving DecidableEq, Repr

/-- A row of the `profiles` table (the fields the policies and fix
scripts read).  `user_id` carries a `UNIQUE` constraint in the schema,
but the duplicate-cleanup claim is precisely about states where that
constraint was not yet enforced, so the model does not bake it in.
`created_at` is a timestamp. -/
structure Profile where
  id : Nat
  user_id : Nat
  full_name : String
  phone_number : String
  role : Role
  created_at : Nat
deriving DecidableEq, Repr

/-- A row of the `expenses` table (fields relevant to policies). -/
structure Expense where
  id : Nat
  user_id : Nat
  amount : Nat
  status : RStatus
deriving DecidableEq, Repr

/-- A row of the `revenues` table (fields relevant to policies and to
the commission trigger).  `amount` in cents, `commission_rate` in
hundredths of a percent. -/
structure Revenue where
  id : Nat
  user_id : Nat
  amount : Nat
  commission_rate : Nat
  status : RStatus
  commission_amount : Nat
deriving DecidableEq, Repr

/-- A row of the `commissions` table. -/
structure Commission where
  salesman_id : Nat
  revenue_id : Nat
  commission_amount : Nat
  commission_rate : Nat
deriving DecidableEq, Repr

/-- A row of the `claims` table (fields relevant to policies and to
`handleStatusUpdate`). -/
structure ClaimRec where
  id : Nat
  user_id : Nat
  amount : Nat
  status : CStatus
  reviewed_date : Option Nat
  reviewed_by : Option Nat
  paid_date : Option Nat
  payment_method : Option String
  payment_reference : Option String
deriving DecidableEq, Repr

/-! ## Commission computation (`complete_database_fix.sql` lines 225-230) -/

/-- `calculate_commission_amount(sale_amount, commission_rate)` returns
`ROUND((sale_amount * commission_rate) / 100, 2)`.  With amounts in
cents and rates in hundredths of a percent the exact product of the two
`DECIMAL`s, expressed in cents, is `sale_amount * commission_rate / 10000`,
and PostgreSQL `ROUND` on `numeric` rounds half away from zero, which on
the nonnegative inputs here is round half up; on scaled integers this is
floor division after adding half the divisor. -/
def calculate_commission_amount (sale_amount commission_rate : Nat) : Nat :=
  (sale_amount * commission_rate + 5000) / 10000

/-- Round half up to the nearest integer (spec wording: round-half-up to
2 decimal places, taken on values scaled to cents). -/
def roundHalfUp (q : ℚ) : ℤ :=
  Int.floor (q + 1 / 2)

/-- The commission amount as the spec words it: round-half-up of
`amount × commission_rate / 100` (2 decimal places), on cent-scaled
inputs. -/
def specCommission (sale_amount commission_rate : Nat) : ℤ :=
  roundHalfUp ((sale_amount * commission_rate : ℚ) / 10000)

/-! ## The revenue-approval trigger and the commissions table

`complete_database_fix.sql` lines 264-295: `handle_revenue_approval`
runs `BEFORE UPDATE ON revenues FOR EACH ROW`.  When
`NEW.status = 'approved' AND OLD.status = 'pending'` it overwrites
`NEW.commission_amount` with `calculate_commission_amount` and inserts a
row into `commissions`; otherwise it returns `NEW` unchanged and inserts
nothing.  The `commissions` table (lines 93-105) carries
`UNIQUE(revenue_id)`, so an insert for a revenue that already has a
commission row violates the constraint and aborts the whole transaction.
-/

/-- One firing of the `handle_revenue_approval` trigger: the adjusted
`NEW` row, plus the commission row to insert (if any). -/
def handle_revenue_approval (old new : Revenue) : Revenue × Option Commission :=
  if new.status = RStatus.approved ∧ old.status = RStatus.pending then
    let amt := calculate_commission_amount new.amount new.commission_rate
    ({ new with commission_amount := amt },
     some { salesman_id := new.user_id, revenue_id := new.id,
            commission_amount := amt, commission_rate := new.commission_rate })
  else
    (new, none)

/-- Insert into `commissions` under the `UNIQUE(revenue_id)` constraint:
`none` means a uniqueness violation (the transaction aborts). -/
def insertCommission (cs : List Commission) (c : Commission) :
    Option (List Commission) :=
  if cs.any (fun c2 => c2.revenue_id == c.revenue_id) then none
  else some (cs ++ [c])

/-- Apply the (optional) commission insert demanded by one trigger firing. -/
def stepCommissions (cs : List Commission) :
    Option Commission → Option (List Commission)
  | none => some cs
  | some c => insertCommission cs c

/-- Run an `UPDATE revenues SET ... = f(...)` over the rows: each row
satisfying `pred` (the conjunction of the statement's WHERE clause and
the RLS policies, which silently filter rows) is replaced by `f row`
after the `BEFORE UPDATE` trigger runs on it; `none` means the
transaction aborted on the commissions uniqueness constraint,
leaving the database unchanged. -/
def updateRevenueRows (pred : Revenue → Bool) (f : Revenue → Revenue) :
    List Revenue → List Commission → Option (List Revenue × List Commission)
  | [], cs => some ([], cs)
  | r :: rest, cs =>
    if pred r then
      (stepCommissions cs (handle_revenue_approval r (f r)).2).bind (fun cs1 =>
        (updateRevenueRows pred f rest cs1).map
          (fun p => ((handle_revenue_approval r (f r)).1 :: p.1, p.2)))
    else
      (updateRevenueRows pred f rest cs).map (fun p => (r :: p.1, p.2))

/-- The revenue-side state: the `revenues` and `commissions` tables. -/
structure DB where
  revenues : List Revenue
  commissions : List Commission
deriving DecidableEq, Repr

/-- The operations that touch the two tables.  Nothing else in the
repository writes to `commissions`: the React pages only insert and
update `revenues` rows, and the trigger is the sole writer of
`commissions`.  `pred` subsumes the WHERE clause and the RLS row
filter of an arbitrary UPDATE by an arbitrary actor. -/
inductive Op where
  | insertRevenue (r : Revenue)
  | updateRevenues (pred : Revenue → Bool) (f : Revenue → Revenue)

/-- Execute one operation; an aborted transaction leaves the state
unchanged. -/
def runOp (db : DB) : Op → DB
  | Op.insertRevenue r => { db with revenues := db.revenues ++ [r] }
  | Op.updateRevenues pred f =>
    match updateRevenueRows pred f db.revenues db.commissions with
    | none => db
    | some (rs, cs) => { revenues := rs, commissions := cs }

/-- Execute a sequence of operations from a given state. -/
def runOps (db : DB) (ops : List Op) : DB :=
  ops.foldl runOp db

/-- The empty initial database. -/
def emptyDB : DB :=
  { revenues := [], commissions := [] }

/-- Number of commission rows referencing the revenue `rid`. -/
def commCount (cs : List Commission) (rid : Nat) : Nat :=
  (cs.filter (fun c => c.revenue_id == rid)).length

/-! ## The authorization policy engine (row-level-security policies)

PostgreSQL evaluates the permissive policies of one command on one
table as a disjunction: the operation may touch a row iff at least one
policy's predicate accepts it.  For UPDATE, rows whose `USING` clause
fails are silently filtered out of the statement, not errors.  Each
definition below is one named policy from the SQL scripts; the
`...Allowed` definitions are the OR of all policies in force on that
table at the end of the scripts (the only policies ever dropped are on
`profiles`, plus five `claims` policies that are recreated in place). -/

/-- Admin test, EXISTS-subquery form:
`EXISTS (SELECT 1 FROM profiles WHERE user_id = auth.uid() AND role = 'admin')`. -/
def isAdminExists (profiles : List Profile) (uid : Nat) : Bool :=
  profiles.any (fun p => p.user_id == uid && p.role == Role.admin)

/-- `get_current_user_role()`:
`SELECT role FROM profiles WHERE user_id = auth.uid()` — the role of the
first matching profile row, if any. -/
def get_current_user_role (profiles : List Profile) (uid : Nat) : Option Role :=
  (profiles.find? (fun p => p.user_id == uid)).map Profile.role

/-- Admin test, `get_current_user_role() = 'admin'` form. -/
def isAdminRole (profiles : List Profile) (uid : Nat) : Bool :=
  get_current_user_role profiles uid == some Role.admin

/-- The final database holds admin policies in both forms (the EXISTS
form from `complete_database_fix.sql` and the initial migration, the
`get_current_user_role` form from the security-definer fix), so the
effective admin grant is their disjunction. -/
def adminGrant (profiles : List Profile) (uid : Nat) : Bool :=
  isAdminExists profiles uid || isAdminRole profiles uid

/-! ### Expenses table policies -/

/-- Policy "Users can view own expenses" (and the initial migration's
"Users can view their own expenses"): `USING (auth.uid() = user_id)`. -/
def users_can_view_own_expenses (uid : Nat) (e : Expense) : Bool :=
  uid == e.user_id

/-- Policy "Admins can view all expenses". -/
def admins_can_view_all_expenses (profiles : List Profile) (uid : Nat)
    (_e : Expense) : Bool :=
  adminGrant profiles uid

/-- SELECT on `expenses`: the OR of the policies in force. -/
def expenseSelectAllowed (profiles : List Profile) (uid : Nat) (e : Expense) : Bool :=
  users_can_view_own_expenses uid e || admins_can_view_all_expenses profiles uid e

/-- Policy "Users can update their own expenses" (initial migration,
`src/unnamed/part_002` lines 87-90): `USING (auth.uid() = user_id)` with
no status restriction; no later script drops it. -/
def users_can_update_their_own_expenses (uid : Nat) (e : Expense) : Bool :=
  uid == e.user_id

/-- Policy "Users can update own pending expenses"
(`complete_database_fix.sql` lines 174-176):
`USING (auth.uid() = user_id AND status = 'pending')`. -/
def users_can_update_own_pending_expenses (uid : Nat) (e : Expense) : Bool :=
  uid == e.user_id && e.status == RStatus.pending

/-- Policy "Admins can update all expenses". -/
def admins_can_update_all_expenses (profiles : List Profile) (uid : Nat)
    (_e : Expense) : Bool :=
  adminGrant profiles uid

/-- UPDATE on `expenses`: the OR of the policies in force. -/
def expenseUpdateAllowed (profiles : List Profile) (uid : Nat) (e : Expense) : Bool :=
  users_can_update_their_own_expenses uid e
    || users_can_update_own_pending_expenses uid e
    || admins_can_update_all_expenses profiles uid e

/-! ### Revenues table policies -/

/-- Policy "Users can view own revenues" / "Users can view their own
revenues": `USING (auth.uid() = user_id)`. -/
def users_can_view_own_revenues (uid : Nat) (r : Revenue) : Bool :=
  uid == r.user_id

/-- Policy "Admins can view all revenues". -/
def admins_can_view_all_revenues (profiles : List Profile) (uid : Nat)
    (_r : Revenue) : Bool :=
  adminGrant profiles uid

/-- SELECT on `revenues`. -/
def revenueSelectAllowed (profiles : List Profile) (uid : Nat) (r : Revenue) : Bool :=
  users_can_view_own_revenues uid r || admins_can_view_all_revenues profiles uid r

/-- Policy "Users can insert their own revenues" (initial migration,
`src/unnamed/part_002` lines 136-139): `WITH CHECK (auth.uid() = user_id)`
— any owner, with no role restriction; no later script drops it. -/
def users_can_insert_their_own_revenues (uid : Nat) (r : Revenue) : Bool :=
  uid == r.user_id

/-- Policy "Salesmen can insert own revenues"
(`complete_database_fix.sql` lines 186-189): owner and role in
('salesman', 'admin'). -/
def salesmen_can_insert_own_revenues (profiles : List Profile) (uid : Nat)
    (r : Revenue) : Bool :=
  uid == r.user_id
    && profiles.any (fun p =>
        p.user_id == uid && (p.role == Role.salesman || p.role == Role.admin))

/-- INSERT on `revenues`: the OR of the two insert policies in force. -/
def revenueInsertAllowed (profiles : List Profile) (uid : Nat) (r : Revenue) : Bool :=
  users_can_insert_their_own_revenues uid r
    || salesmen_can_insert_own_revenues profiles uid r

/-- Policy "Users can update their own revenues" (initial migration):
no status restriction; never dropped. -/
def users_can_update_their_own_revenues (uid : Nat) (r : Revenue) : Bool :=
  uid == r.user_id

/-- Policy "Users can update own pending revenues"
(`complete_database_fix.sql` lines 190-192). -/
def users_can_update_own_pending_revenues (uid : Nat) (r : Revenue) : Bool :=
  uid == r.user_id && r.status == RStatus.pending

/-- Policy "Admins can update all revenues" (`complete_database_fix.sql`
lines 193-195 and the migration adding the revenue status column). -/
def admins_can_update_all_revenues (profiles : List Profile) (uid : Nat)
    (_r : Revenue) : Bool :=
  adminGrant profiles uid

/-- UPDATE on `revenues`. -/
def revenueUpdateAllowed (profiles : List Profile) (uid : Nat) (r : Revenue) : Bool :=
  users_can_update_their_own_revenues uid r
    || users_can_update_own_pending_revenues uid r
    || admins_can_update_all_revenues profiles uid r

/-! ### Claims table policies -/

/-- Policy "Users can view own claims" / "Users can view their own
claims". -/
def users_can_view_own_claims (uid : Nat) (c : ClaimRec) : Bool :=
  uid == c.user_id

/-- Policy "Admins can view all claims". -/
def admins_can_view_all_claims (profiles : List Profile) (uid : Nat)
    (_c : ClaimRec) : Bool :=
  adminGrant profiles uid

/-- SELECT on `claims`. -/
def claimSelectAllowed (profiles : List Profile) (uid : Nat) (c : ClaimRec) : Bool :=
  users_can_view_own_claims uid c || admins_can_view_all_claims profiles uid c

/-- Policy "Users can update their own pending claims" (migration
creating the claims table): owner and pending; never dropped (the later
fix drops a policy of a different name). -/
def users_can_update_their_own_pending_claims (uid : Nat) (c : ClaimRec) : Bool :=
  uid == c.user_id && c.status == CStatus.pending

/-- Policy "Users can update their own claims"
(`fix_all_user_issues.sql` lines 120-123): `USING (auth.uid() = user_id)`
with no status restriction. -/
def users_can_update_their_own_claims (uid : Nat) (c : ClaimRec) : Bool :=
  uid == c.user_id

/-- Policy "Users can update own pending claims"
(`complete_database_fix.sql` lines 203-205). -/
def users_can_update_own_pending_claims (uid : Nat) (c : ClaimRec) : Bool :=
  uid == c.user_id && c.status == CStatus.pending

/-- Policy "Admins can update all claims" (`complete_database_fix.sql`
lines 206-208, `fix_all_user_issues.sql` lines 130-133). -/
def admins_can_update_all_claims (profiles : List Profile) (uid : Nat)
    (_c : ClaimRec) : Bool :=
  adminGrant profiles uid

/-- UPDATE on `claims`. -/
def claimUpdateAllowed (profiles : List Profile) (uid : Nat) (c : ClaimRec) : Bool :=
  users_can_update_their_own_pending_claims uid c
    || users_can_update_their_own_claims uid c
    || users_can_update_own_pending_claims uid c
    || admins_can_update_all_claims profiles uid c

/-! ### Profiles table policies -/

/-- Policy "Public profiles are viewable by everyone"
(`complete_database_fix.sql` line 164): `USING (true)`. -/
def public_profiles_are_viewable_by_everyone (_uid : Nat) (_q : Profile) : Bool :=
  true

/-- Policy "Users can view their own profile"
(`fix_employee_registration.sql` line 49, `fix_all_user_issues.sql`
lines 71-74). -/
def users_can_view_their_own_profile (uid : Nat) (q : Profile) : Bool :=
  uid == q.user_id

/-- Policy "Admins can view all profiles". -/
def admins_can_view_all_profiles (profiles : List Profile) (uid : Nat)
    (_q : Profile) : Bool :=
  adminGrant profiles uid

/-- SELECT on `profiles`. -/
def profileSelectAllowed (profiles : List Profile) (uid : Nat) (q : Profile) : Bool :=
  public_profiles_are_viewable_by_everyone uid q
    || users_can_view_their_own_profile uid q
    || admins_can_view_all_profiles profiles uid q

/-- Policy "Users can update own profile" / "Users can update their own
profile": `USING (auth.uid() = user_id)`. -/
def users_can_update_their_own_profile (uid : Nat) (q : Profile) : Bool :=
  uid == q.user_id

/-- Policy "Admins can update all profiles" (`fix_all_user_issues.sql`
lines 93-96). -/
def admins_can_update_all_profiles (profiles : List Profile) (uid : Nat)
    (_q : Profile) : Bool :=
  adminGrant profiles uid

/-- UPDATE on `profiles`. -/
def profileUpdateAllowed (profiles : List Profile) (uid : Nat) (q : Profile) : Bool :=
  users_can_update_their_own_profile uid q
    || admins_can_update_all_profiles profiles uid q

/-- `UPDATE revenues SET ... WHERE id = rid` as executed by principal
`uid` under RLS: only rows that match the WHERE clause and that some
UPDATE policy grants are modified (failing rows are silently skipped,
not errors); the commission trigger runs per modified row. -/
def rlsUpdateRevenues (profiles : List Profile) (uid rid : Nat)
    (f : Revenue → Revenue) (db : DB) : Option DB :=
  (updateRevenueRows
      (fun r => r.id == rid && revenueUpdateAllowed profiles uid r) f
      db.revenues db.commissions).map
    (fun p => { revenues := p.1, commissions := p.2 })

/-! ## Duplicate-profile cleanup and the signup trigger -/

/-- The duplicate-profile cleanup of `fix_all_user_issues.sql` lines
140-145 (also `src/unnamed/part_000` lines 100-105):
`DELETE FROM profiles p1 WHERE EXISTS (SELECT 1 FROM profiles p2
WHERE p2.user_id = p1.user_id AND p2.id > p1.id)` — a row survives iff
no row of the same identity has a strictly greater id. -/
def cleanupDuplicateProfiles (ps : List Profile) : List Profile :=
  ps.filter (fun p1 =>
    ! ps.any (fun p2 => p2.user_id == p1.user_id && p1.id < p2.id))

/-- A freshly-inserted `auth.users` row as the signup trigger sees it:
id, plus the optional metadata the trigger COALESCEs. -/
structure NewUser where
  id : Nat
  full_name_meta : Option String
  phone : Option Nat
  role_meta : Option Role
deriving DecidableEq, Repr

/-- `handle_new_user` of `fix_all_user_issues.sql` lines 43-56 (also
`src/unnamed/part_000` lines 38-51): inserts a profile row for the new
identity with COALESCE defaults, `ON CONFLICT (user_id) DO NOTHING` —
when a profile row for the identity already exists the insert is a
no-op instead of a uniqueness error, which is why this function is
total.  `fresh_id` is the generated primary key and `now` the creation
timestamp of the would-be new row; the phone number is rendered from
the optional phone. -/
def handle_new_user (profiles : List Profile) (u : NewUser)
    (fresh_id now : Nat) : List Profile :=
  if profiles.any (fun p => p.user_id == u.id) then profiles
  else
    profiles ++ [{ id := fresh_id, user_id := u.id,
                   full_name := u.full_name_meta.getD "User",
                   phone_number := (u.phone.map toString).getD "",
                   role := u.role_meta.getD Role.employee,
                   created_at := now }]

/-! ## ClaimsPage status updates (`src/pages/ClaimsPage.tsx`) -/

/-- The payment data the Mark-Paid click handler passes. -/
structure PaymentData where
  method : String
  reference : String
deriving DecidableEq, Repr

/-- `handleStatusUpdate` (`ClaimsPage.tsx` lines 134-169): updates the
claim matching `claimId` to the requested status, sets the review
fields, and — only when the status is `paid` and payment data was
passed — sets the paid-date, payment method and payment reference in
the same update.  There is no check of the claim's current status and
no rejection path. -/
def handleStatusUpdate (cs : List ClaimRec) (claimId : Nat) (status : CStatus)
    (uid : Nat) (today : Nat) (paymentData : Option PaymentData) : List ClaimRec :=
  cs.map (fun c =>
    if c.id == claimId then
      let c1 := { c with status := status,
                         reviewed_date := some today,
                         reviewed_by := some uid }
      match paymentData with
      | some pd =>
        if status == CStatus.paid then
          { c1 with paid_date := some today,
                    payment_method := some pd.method,
                    payment_reference := some pd.reference }
        else c1
      | none => c1
    else c)

/-- The Mark-Paid button (`ClaimsPage.tsx` lines 511-519) renders only
when the viewer's role is admin and the claim's status is approved; its
click handler always supplies a payment method and a generated payment
reference. -/
def markPaidVisible (role : Role) (c : ClaimRec) : Bool :=
  role == Role.admin && c.status == CStatus.approved

/-! ## Concrete sample rows used by counterexamples and witnesses -/

/-- A sample admin profile row (identity 10). -/
def pAdmin : Profile :=
  { id := 1, user_id := 10, full_name := "Alice", phone_number := "",
    role := Role.admin, created_at := 0 }

/-- A sample employee profile row (identity 20). -/
def pEmployee : Profile :=
  { id := 2, user_id := 20, full_name := "Bob", phone_number := "",
    role := Role.employee, created_at := 0 }

/-- A second employee profile row (identity 30). -/
def pEmployee2 : Profile :=
  { id := 3, user_id := 30, full_name := "Carol", phone_number := "",
    role := Role.employee, created_at := 0 }

/-- Duplicate profile rows for identity 7: `dupA` was created first. -/
def dupA : Profile :=
  { id := 1, user_id := 7, full_name := "Dora", phone_number := "",
    role := Role.employee, created_at := 0 }

/-- The later-created duplicate for identity 7, with the greater id. -/
def dupB : Profile :=
  { id := 2, user_id := 7, full_name := "Dora", phone_number := "",
    role := Role.employee, created_at := 5 }

/-- A sample already-approved revenue row: 1000.00 at 5.00 %. -/
def revApproved : Revenue :=
  { id := 1, user_id := 20, amount := 100000, commission_rate := 500,
    status := RStatus.approved, commission_amount := 5000 }

/-- The same row while still pending. -/
def revPending : Revenue :=
  { id := 1, user_id := 20, amount := 100000, commission_rate := 500,
    status := RStatus.pending, commission_amount := 0 }

/-- The commission row the trigger creates for `revApproved`. -/
def commSample : Commission :=
  { salesman_id := 20, revenue_id := 1, commission_amount := 5000,
    commission_rate := 500 }

/-- A sample approved expense owned by identity 20. -/
def expApproved : Expense :=
  { id := 1, user_id := 20, amount := 12050, status := RStatus.approved }

/-- A sample pending claim owned by identity 20. -/
def claimPending : ClaimRec :=
  { id := 1, user_id := 20, amount := 5000, status := CStatus.pending,
    reviewed_date := none, reviewed_by := none, paid_date := none,
    payment_method := none, payment_reference := none }

/-- A sample signup event for identity 7. -/
def uSample : NewUser :=
  { id := 7, full_name_meta := some "Dora", phone := none,
    role_meta := some Role.salesman }

/-! ## Supporting lemmas -/

lemma calculate_commission_amount_eq_spec (a c : Nat) :
    (calculate_commission_amount a c : ℤ) = specCommission a c := by
  unfold calculate_commission_amount specCommission roundHalfUp
  have h1 : ((a : ℚ) * c) / 10000 + 1 / 2
      = (((a * c + 5000 : ℕ) : ℤ) : ℚ) / ((10000 : ℕ) : ℚ) := by
    push_cast
    ring
  push_cast
  rw [h1]
  rw [Rat.floor_intCast_div_natCast]
  push_cast
  rfl

lemma commCount_append (cs ds : List Commission) (rid : Nat) :
    commCount (cs ++ ds) rid = commCount cs rid + commCount ds rid := by
  simp [commCount, List.filter_append]

lemma insertCommission_commCount {cs cs1 : List Commission} {c : Commission}
    (h : ∀ rid, commCount cs rid ≤ 1)
    (he : insertCommission cs c = some cs1) :
    ∀ rid, commCount cs1 rid ≤ 1 := by
  unfold insertCommission at he
  by_cases hany : cs.any (fun c2 => c2.revenue_id == c.revenue_id)
  · rw [if_pos hany] at he
    exact absurd he (by simp)
  · rw [if_neg hany] at he
    injection he with he
    have hzero : commCount cs c.revenue_id = 0 := by
      have hall := List.any_eq_false.mp (Bool.eq_false_iff.mpr hany)
      simp only [commCount, List.length_eq_zero, List.filter_eq_nil_iff]
      intro x hx
      exact hall x hx
    intro rid
    rw [← he, commCount_append]
    by_cases hr : c.revenue_id = rid
    · have h2 : commCount [c] rid = 1 := by
        simp [commCount, hr]
      rw [← hr, hzero, hr, h2]
    · have h2 : commCount [c] rid = 0 := by
        simp [commCount]
        intro habs
        exact absurd habs hr
      rw [h2]
      exact Nat.le_trans (Nat.le_of_eq (Nat.add_zero _)) (h rid)

lemma stepCommissions_commCount {cs cs1 : List Commission} {oc : Option Commission}
    (h : ∀ rid, commCount cs rid ≤ 1)
    (he : stepCommissions cs oc = some cs1) :
    ∀ rid, commCount cs1 rid ≤ 1 := by
  cases oc with
  | none =>
    simp [stepCommissions] at he
    rw [← he]
    exact h
  | some c =>
    exact insertCommission_commCount h he

lemma updateRevenueRows_commCount (pred : Revenue → Bool) (f : Revenue → Revenue) :
    ∀ (rs : List Revenue) (cs : List Commission) (rs1 : List Revenue)
      (cs1 : List Commission),
      (∀ rid, commCount cs rid ≤ 1) →
      updateRevenueRows pred f rs cs = some (rs1, cs1) →
      ∀ rid, commCount cs1 rid ≤ 1 := by
  intro rs
  induction rs with
  | nil =>
    intro cs rs1 cs1 h he
    simp [updateRevenueRows] at he
    rw [← he.2]
    exact h
  | cons r rest ih =>
    intro cs rs1 cs1 h he
    unfold updateRevenueRows at he
    by_cases hp : pred r
    · rw [if_pos hp] at he
      cases hstep : stepCommissions cs (handle_revenue_approval r (f r)).2 with
      | none =>
        rw [hstep] at he
        exact absurd he (by simp)
      | some csA =>
        rw [hstep] at he
        simp only [Option.some_bind] at he
        have hA := stepCommissions_commCount h hstep
        cases hrec : updateRevenueRows pred f rest csA with
        | none =>
          rw [hrec] at he
          exact absurd he (by simp)
        | some p =>
          cases p with
          | mk rsB csB =>
            rw [hrec] at he
            simp only [Option.map_some', Option.some.injEq,
              Prod.mk.injEq] at he
            rw [← he.2]
            exact ih csA rsB csB hA hrec
    · rw [if_neg hp] at he
      cases hrec : updateRevenueRows pred f rest cs with
      | none =>
        rw [hrec] at he
        exact absurd he (by simp)
      | some p =>
        cases p with
        | mk rsB csB =>
          rw [hrec] at he
          simp only [Option.map_some', Option.some.injEq, Prod.mk.injEq] at he
          rw [← he.2]
          exact ih cs rsB csB h hrec

lemma runOp_commCount {db : DB} (h : ∀ rid, commCount db.commissions rid ≤ 1)
    (op : Op) : ∀ rid, commCount (runOp db op).commissions rid ≤ 1 := by
  cases op with
  | insertRevenue r =>
    simpa [runOp] using h
  | updateRevenues pred f =>
    cases hrun : updateRevenueRows pred f db.revenues db.commissions with
    | none => simpa [runOp, hrun] using h
    | some p =>
      cases p with
      | mk rs cs =>
        simpa [runOp, hrun] using
          updateRevenueRows_commCount pred f db.revenues db.commissions rs cs h hrun

lemma runOps_commCount {db : DB} (h : ∀ rid, commCount db.commissions rid ≤ 1)
    (ops : List Op) : ∀ rid, commCount (runOps db ops).commissions rid ≤ 1 := by
  induction ops generalizing db with
  | nil => simpa [runOps] using h
  | cons op rest ih =>
    have h1 := runOp_commCount h op
    simpa [runOps, List.foldl_cons] using ih h1

/-- When every targeted row is already out of the `pending` state, the
trigger condition `OLD.status = 'pending'` fails on every row, so the
update succeeds without touching `commissions`. -/
lemma updateRevenueRows_no_pending (pred : Revenue → Bool) (f : Revenue → Revenue) :
    ∀ (rs : List Revenue) (cs : List Commission),
      (∀ r, r ∈ rs → pred r = true → r.status ≠ RStatus.pending) →
      ∃ rs1, updateRevenueRows pred f rs cs = some (rs1, cs) := by
  intro rs
  induction rs with
  | nil =>
    intro cs _
    exact ⟨[], by simp [updateRevenueRows]⟩
  | cons r rest ih =>
    intro cs hnp
    have hrest : ∀ r2, r2 ∈ rest → pred r2 = true → r2.status ≠ RStatus.pending := by
      intro r2 h2 hp2
      exact hnp r2 (List.mem_cons_of_mem _ h2) hp2
    obtain ⟨rs1, hrs1⟩ := ih cs hrest
    by_cases hp : pred r
    · have hstat : r.status ≠ RStatus.pending := hnp r (List.mem_cons_self _ _) hp
      have htrig : (handle_revenue_approval r (f r)).2 = none := by
        unfold handle_revenue_approval
        have hcond : ¬((f r).status = RStatus.approved ∧ r.status = RStatus.pending) := by
          intro hc
          exact hstat hc.2
        simp [hcond]
      refine ⟨(handle_revenue_approval r (f r)).1 :: rs1, ?_⟩
      unfold updateRevenueRows
      rw [if_pos hp, htrig]
      simp only [stepCommissions, Option.some_bind, hrs1, Option.map_some']
    · refine ⟨r :: rs1, ?_⟩
      unfold updateRevenueRows
      rw [if_neg hp, hrs1]
      simp only [Option.map_some']

/-- If no profile row of `uid` is an admin row, neither admin check
grants. -/
lemma adminGrant_eq_false {profiles : List Profile} {uid : Nat}
    (h : ∀ p, p ∈ profiles → p.user_id = uid → p.role ≠ Role.admin) :
    adminGrant profiles uid = false := by
  unfold adminGrant
  have h1 : isAdminExists profiles uid = false := by
    unfold isAdminExists
    rw [List.any_eq_false]
    intro p hp
    by_cases hu : p.user_id = uid
    · have hr := h p hp hu
      simp [hu, hr]
    · simp [hu]
  have h2 : isAdminRole profiles uid = false := by
    unfold isAdminRole get_current_user_role
    cases hf : profiles.find? (fun p => p.user_id == uid) with
    | none => simp
    | some q =>
      have hq1 : q.user_id = uid := by
        simpa using List.find?_some hf
      have hq2 : q ∈ profiles := List.mem_of_find?_eq_some hf
      have hr := h q hq2 hq1
      simp [hr]
  rw [h1, h2]
  rfl

/-! ## Claim theorems -/

/-- C1: for every Revenue record, after any sequence of operations from
the empty database, at most one `commissions` row references it (the
`UNIQUE(revenue_id)` constraint aborts any second insert and the
aborted transaction leaves the state unchanged); and re-invoking the
approve transition on revenues that are already approved leaves
`commissions` untouched — the trigger requires `OLD.status = 'pending'`,
so re-approval is a no-op with respect to commission records. -/
theorem c1_commission_at_most_one :
    (∀ (ops : List Op) (rid : Nat),
      commCount ((runOps emptyDB ops).commissions) rid ≤ 1)
    ∧ (∀ (db : DB) (rid : Nat) (f : Revenue → Revenue),
        (∀ r, r ∈ db.revenues → r.id = rid → r.status = RStatus.approved) →
        (runOp db (Op.updateRevenues (fun r => r.id == rid) f)).commissions
          = db.commissions) := by
  constructor
  · intro ops rid
    have h0 : ∀ rid2, commCount emptyDB.commissions rid2 ≤ 1 := by
      intro rid2
      simp [emptyDB, commCount]
    exact runOps_commCount h0 ops rid
  · intro db rid f happ
    have hnp : ∀ r, r ∈ db.revenues → (fun r2 => r2.id == rid) r = true →
        r.status ≠ RStatus.pending := by
      intro r hr hid
      have hid2 : r.id = rid := by simpa using hid
      rw [happ r hr hid2]
      intro hcon
      exact RStatus.noConfusion hcon
    obtain ⟨rs1, hrs1⟩ := updateRevenueRows_no_pending (fun r => r.id == rid) f
      db.revenues db.commissions hnp
    simp [runOp, hrs1]

/-- Witness for c1_commission_at_most_one: a concrete database holding
one approved revenue and its commission row; re-running the approve
update leaves the commission table exactly as it was. -/
theorem c1_commission_at_most_one_witness :
    (∀ r, r ∈ (DB.mk [revApproved] [commSample]).revenues → r.id = 1 →
        r.status = RStatus.approved)
    ∧ (runOp (DB.mk [revApproved] [commSample])
        (Op.updateRevenues (fun r => r.id == 1)
          (fun r => { r with status := RStatus.approved }))).commissions
      = (DB.mk [revApproved] [commSample]).commissions := by
  have h : ∀ r, r ∈ (DB.mk [revApproved] [commSample]).revenues → r.id = 1 →
      r.status = RStatus.approved := by
    intro r hr _
    rw [List.mem_singleton.mp hr]
    rfl
  exact ⟨h, c1_commission_at_most_one.2 (DB.mk [revApproved] [commSample]) 1
    (fun r => { r with status := RStatus.approved }) h⟩

/-- C3: the pending-to-approved transition hands the trigger a
commission row whose amount is exactly round-half-up of
`amount × commission_rate / 100` at 2 decimal places (computed here on
cent-scaled integers); in particular amount 1000.00 at rate 5.00 gives
50.00 (100000 and 500 give 5000 cents) and amount 33.33 at rate 5
gives 1.67 (3333 and 500 give 167 cents). -/
theorem c3_commission_rounding :
    (∀ old new : Revenue,
      old.status = RStatus.pending → new.status = RStatus.approved →
      ∃ c, (handle_revenue_approval old new).2 = some c
        ∧ c.revenue_id = new.id
        ∧ (c.commission_amount : ℤ)
            = roundHalfUp ((new.amount * new.commission_rate : ℚ) / 10000))
    ∧ calculate_commission_amount 100000 500 = 5000
    ∧ calculate_commission_amount 3333 500 = 167 := by
  refine ⟨?_, by decide, by decide⟩
  intro old new hold hnew
  refine ⟨Commission.mk new.user_id new.id
      (calculate_commission_amount new.amount new.commission_rate)
      new.commission_rate, ?_, rfl, ?_⟩
  · unfold handle_revenue_approval
    rw [if_pos ⟨hnew, hold⟩]
  · simpa [specCommission] using
      calculate_commission_amount_eq_spec new.amount new.commission_rate

/-- For an admin, a WHERE-id update that sets the status to pending is
applied to every matching row and leaves `commissions` unchanged (the
trigger only fires towards approved). -/
lemma updateRevenueRows_admin_setPending (profiles : List Profile) (uid rid : Nat)
    (hadmin : adminGrant profiles uid = true) :
    ∀ (rs : List Revenue) (cs : List Commission),
      updateRevenueRows (fun r => r.id == rid && revenueUpdateAllowed profiles uid r)
        (fun r => { r with status := RStatus.pending }) rs cs
      = some (rs.map (fun r =>
          if r.id == rid then { r with status := RStatus.pending } else r), cs) := by
  intro rs
  induction rs with
  | nil =>
    intro cs
    simp [updateRevenueRows]
  | cons r rest ih =>
    intro cs
    have hallow : revenueUpdateAllowed profiles uid r = true := by
      unfold revenueUpdateAllowed admins_can_update_all_revenues
      rw [hadmin]
      simp
    by_cases hid : (r.id == rid) = true
    · have hsnd : (handle_revenue_approval r { r with status := RStatus.pending }).2
          = none := by
        simp [handle_revenue_approval]
      unfold updateRevenueRows
      simp only [hid, hallow, Bool.and_self, if_true, hsnd, stepCommissions,
        Option.some_bind, ih cs, Option.map_some', List.map_cons]
      simp [hid, handle_revenue_approval]
    · have hidf : (r.id == rid) = false := Bool.eq_false_iff.mpr hid
      unfold updateRevenueRows
      simp only [hidf, Bool.false_and, Bool.false_eq_true, if_false, ih cs,
        Option.map_some', List.map_cons]

/-- C2 fails on the code: an admin may move an approved — terminal —
revenue back to pending.  The update is granted by "Admins can update
all revenues" and is applied; no workflow-violation check exists
anywhere in the scripts or the pages. -/
theorem c2_counterexample :
    revApproved.status = RStatus.approved
    ∧ pAdmin.role = Role.admin
    ∧ rlsUpdateRevenues [pAdmin] 10 1 (fun r => { r with status := RStatus.pending })
        (DB.mk [revApproved] [commSample])
      = some (DB.mk [{ revApproved with status := RStatus.pending }] [commSample]) := by
  refine ⟨rfl, rfl, ?_⟩
  rfl

/-- C2 amended: permission to update a Ledger Entity never depends on
its status — on each of the three tables the policy disjunction reduces
to owner-or-admin, because the unrestricted owner-update policies of
the initial migration subsume the pending-only ones.  Hence a record in
a terminal state is still updatable by its owner and by any admin, and
an admin's approved-to-pending transition is applied (rows an actor is
not granted are silently filtered, not rejected with a workflow
violation). -/
theorem c2_amended :
    (∀ (profiles : List Profile) (uid : Nat) (e : Expense),
      expenseUpdateAllowed profiles uid e
        = (uid == e.user_id || adminGrant profiles uid))
    ∧ (∀ (profiles : List Profile) (uid : Nat) (r : Revenue),
      revenueUpdateAllowed profiles uid r
        = (uid == r.user_id || adminGrant profiles uid))
    ∧ (∀ (profiles : List Profile) (uid : Nat) (c : ClaimRec),
      claimUpdateAllowed profiles uid c
        = (uid == c.user_id || adminGrant profiles uid))
    ∧ (∀ (profiles : List Profile) (uid rid : Nat) (db : DB),
      adminGrant profiles uid = true →
      rlsUpdateRevenues profiles uid rid
          (fun r => { r with status := RStatus.pending }) db
        = some (DB.mk (db.revenues.map (fun r =>
            if r.id == rid then { r with status := RStatus.pending } else r))
            db.commissions)) := by
  refine ⟨?_, ?_, ?_, ?_⟩
  · intro profiles uid e
    unfold expenseUpdateAllowed users_can_update_their_own_expenses
      users_can_update_own_pending_expenses admins_can_update_all_expenses
    cases h : (uid == e.user_id) <;> simp [h]
  · intro profiles uid r
    unfold revenueUpdateAllowed users_can_update_their_own_revenues
      users_can_update_own_pending_revenues admins_can_update_all_revenues
    cases h : (uid == r.user_id) <;> simp [h]
  · intro profiles uid c
    unfold claimUpdateAllowed users_can_update_their_own_pending_claims
      users_can_update_their_own_claims users_can_update_own_pending_claims
      admins_can_update_all_claims
    cases h : (uid == c.user_id) <;> simp [h]
  · intro profiles uid rid db hadmin
    unfold rlsUpdateRevenues
    rw [updateRevenueRows_admin_setPending profiles uid rid hadmin
      db.revenues db.commissions]
    rfl

/-- Witness for c2_amended: the concrete admin applying
approved-to-pending on the sample database. -/
theorem c2_amended_witness :
    adminGrant [pAdmin] 10 = true
    ∧ rlsUpdateRevenues [pAdmin] 10 1
        (fun r => { r with status := RStatus.pending })
        (DB.mk [revApproved] [commSample])
      = some (DB.mk ([revApproved].map (fun r =>
          if r.id == 1 then { r with status := RStatus.pending } else r))
          [commSample]) :=
  ⟨by decide,
   c2_amended.2.2.2 [pAdmin] 10 1 (DB.mk [revApproved] [commSample]) (by decide)⟩

/-- C4 fails on the code: an employee inserting a revenue it owns is
granted by the surviving "Users can insert their own revenues" policy;
under permissive-OR evaluation the role-restricted "Salesmen can insert
own revenues" policy adds a grant and never restricts. -/
theorem c4_counterexample :
    pEmployee.role = Role.employee
    ∧ pEmployee.user_id = 20
    ∧ revenueInsertAllowed [pEmployee] 20
        (Revenue.mk 5 20 100000 500 RStatus.pending 0) = true := by
  decide

/-- C4 amended: inserting a Revenue is permitted exactly when the
inserter is the owner, for every role — employees included; the
salesman-or-admin refinement is not effective. -/
theorem c4_amended :
    ∀ (profiles : List Profile) (uid : Nat) (r : Revenue),
      revenueInsertAllowed profiles uid r = (uid == r.user_id) := by
  intro profiles uid r
  unfold revenueInsertAllowed users_can_insert_their_own_revenues
    salesmen_can_insert_own_revenues
  cases h : (uid == r.user_id) <;> simp [h]

/-- C5 fails on the code: the owner (a non-admin employee) of an
approved expense is still granted UPDATE, by the unrestricted
"Users can update their own expenses" policy of the initial migration,
which no later script drops. -/
theorem c5_counterexample :
    expApproved.status = RStatus.approved
    ∧ expApproved.user_id = 20
    ∧ pEmployee.user_id = 20
    ∧ pEmployee.role = Role.employee
    ∧ expenseUpdateAllowed [pEmployee] 20 expApproved = true := by
  decide

/-- C5 amended: an owner's update of its own record is permitted in
every status — pending, approved, rejected or paid — on all three
Ledger tables, because the unrestricted owner-update policies subsume
the pending-only ones; non-admin updates of records owned by others
remain denied. -/
theorem c5_amended :
    (∀ (profiles : List Profile) (uid : Nat) (e : Expense), uid = e.user_id →
      expenseUpdateAllowed profiles uid e = true)
    ∧ (∀ (profiles : List Profile) (uid : Nat) (e : Expense), uid ≠ e.user_id →
      (∀ p, p ∈ profiles → p.user_id = uid → p.role ≠ Role.admin) →
      expenseUpdateAllowed profiles uid e = false)
    ∧ (∀ (profiles : List Profile) (uid : Nat) (r : Revenue), uid = r.user_id →
      revenueUpdateAllowed profiles uid r = true)
    ∧ (∀ (profiles : List Profile) (uid : Nat) (r : Revenue), uid ≠ r.user_id →
      (∀ p, p ∈ profiles → p.user_id = uid → p.role ≠ Role.admin) →
      revenueUpdateAllowed profiles uid r = false)
    ∧ (∀ (profiles : List Profile) (uid : Nat) (c : ClaimRec), uid = c.user_id →
      claimUpdateAllowed profiles uid c = true)
    ∧ (∀ (profiles : List Profile) (uid : Nat) (c : ClaimRec), uid ≠ c.user_id →
      (∀ p, p ∈ profiles → p.user_id = uid → p.role ≠ Role.admin) →
      claimUpdateAllowed profiles uid c = false) := by
  refine ⟨?_, ?_, ?_, ?_, ?_, ?_⟩
  · intro profiles uid e h
    simp [expenseUpdateAllowed, users_can_update_their_own_expenses, h]
  · intro profiles uid e hne hnoadm
    have ha := adminGrant_eq_false hnoadm
    simp [expenseUpdateAllowed, users_can_update_their_own_expenses,
      users_can_update_own_pending_expenses, admins_can_update_all_expenses,
      hne, ha]
  · intro profiles uid r h
    simp [revenueUpdateAllowed, users_can_update_their_own_revenues, h]
  · intro profiles uid r hne hnoadm
    have ha := adminGrant_eq_false hnoadm
    simp [revenueUpdateAllowed, users_can_update_their_own_revenues,
      users_can_update_own_pending_revenues, admins_can_update_all_revenues,
      hne, ha]
  · intro profiles uid c h
    simp [claimUpdateAllowed, users_can_update_their_own_claims, h]
  · intro profiles uid c hne hnoadm
    have ha := adminGrant_eq_false hnoadm
    simp [claimUpdateAllowed, users_can_update_their_own_pending_claims,
      users_can_update_their_own_claims, users_can_update_own_pending_claims,
      admins_can_update_all_claims, hne, ha]

/-- Witness for c5_amended: the concrete owner updating its approved
expense is permitted; a concrete non-owning non-admin is denied. -/
theorem c5_amended_witness :
    ((20 : Nat) = expApproved.user_id
     ∧ expenseUpdateAllowed [pEmployee] 20 expApproved = true)
    ∧ ((30 : Nat) ≠ expApproved.user_id
       ∧ (∀ p, p ∈ [pEmployee2] → p.user_id = 30 → p.role ≠ Role.admin)
       ∧ expenseUpdateAllowed [pEmployee2] 30 expApproved = false) := by
  have hne : (30 : Nat) ≠ expApproved.user_id := by decide
  have hnoadm : ∀ p, p ∈ [pEmployee2] → p.user_id = 30 → p.role ≠ Role.admin := by
    intro p hp _
    rw [List.mem_singleton.mp hp]
    decide
  exact ⟨⟨rfl, c5_amended.1 [pEmployee] 20 expApproved rfl⟩,
    hne, hnoadm, c5_amended.2.1 [pEmployee2] 30 expApproved hne hnoadm⟩

/-- C6: on all three Ledger tables a non-admin principal cannot read a
record owned by someone else — the only SELECT policies are own-row and
admin — while an admin grant makes every record readable. -/
theorem c6_read_only_owner_or_admin :
    (∀ (profiles : List Profile) (uid : Nat) (e : Expense),
      (∀ p, p ∈ profiles → p.user_id = uid → p.role ≠ Role.admin) →
      uid ≠ e.user_id → expenseSelectAllowed profiles uid e = false)
    ∧ (∀ (profiles : List Profile) (uid : Nat) (r : Revenue),
      (∀ p, p ∈ profiles → p.user_id = uid → p.role ≠ Role.admin) →
      uid ≠ r.user_id → revenueSelectAllowed profiles uid r = false)
    ∧ (∀ (profiles : List Profile) (uid : Nat) (c : ClaimRec),
      (∀ p, p ∈ profiles → p.user_id = uid → p.role ≠ Role.admin) →
      uid ≠ c.user_id → claimSelectAllowed profiles uid c = false)
    ∧ (∀ (profiles : List Profile) (uid : Nat) (e : Expense),
      adminGrant profiles uid = true → expenseSelectAllowed profiles uid e = true)
    ∧ (∀ (profiles : List Profile) (uid : Nat) (r : Revenue),
      adminGrant profiles uid = true → revenueSelectAllowed profiles uid r = true)
    ∧ (∀ (profiles : List Profile) (uid : Nat) (c : ClaimRec),
      adminGrant profiles uid = true → claimSelectAllowed profiles uid c = true) := by
  refine ⟨?_, ?_, ?_, ?_, ?_, ?_⟩
  · intro profiles uid e hnoadm hne
    have ha := adminGrant_eq_false hnoadm
    simp [expenseSelectAllowed, users_can_view_own_expenses,
      admins_can_view_all_expenses, hne, ha]
  · intro profiles uid r hnoadm hne
    have ha := adminGrant_eq_false hnoadm
    simp [revenueSelectAllowed, users_can_view_own_revenues,
      admins_can_view_all_revenues, hne, ha]
  · intro profiles uid c hnoadm hne
    have ha := adminGrant_eq_false hnoadm
    simp [claimSelectAllowed, users_can_view_own_claims,
      admins_can_view_all_claims, hne, ha]
  · intro profiles uid e ha
    simp [expenseSelectAllowed, admins_can_view_all_expenses, ha]
  · intro profiles uid r ha
    simp [revenueSelectAllowed, admins_can_view_all_revenues, ha]
  · intro profiles uid c ha
    simp [claimSelectAllowed, admins_can_view_all_claims, ha]

/-- Witness for c6_read_only_owner_or_admin: a concrete non-admin
(identity 30) denied on an expense of identity 20, and a concrete admin
(identity 10) granted on the same expense. -/
theorem c6_read_only_owner_or_admin_witness :
    ((∀ p, p ∈ [pEmployee2] → p.user_id = 30 → p.role ≠ Role.admin)
     ∧ (30 : Nat) ≠ expApproved.user_id
     ∧ expenseSelectAllowed [pEmployee2] 30 expApproved = false)
    ∧ (adminGrant [pAdmin] 10 = true
       ∧ expenseSelectAllowed [pAdmin] 10 expApproved = true) := by
  have hnoadm : ∀ p, p ∈ [pEmployee2] → p.user_id = 30 → p.role ≠ Role.admin := by
    intro p hp _
    rw [List.mem_singleton.mp hp]
    decide
  have hne : (30 : Nat) ≠ expApproved.user_id := by decide
  have hadm : adminGrant [pAdmin] 10 = true := by decide
  exact ⟨⟨hnoadm, hne,
    c6_read_only_owner_or_admin.1 [pEmployee2] 30 expApproved hnoadm hne⟩,
    hadm, c6_read_only_owner_or_admin.2.2.2.1 [pAdmin] 10 expApproved hadm⟩

/-- C8 fails on the code: a non-admin principal (identity 20) reads the
profile row of a different identity (30) — "Public profiles are
viewable by everyone" grants every SELECT unconditionally. -/
theorem c8_counterexample :
    pEmployee.role = Role.employee
    ∧ pEmployee.user_id ≠ pEmployee2.user_id
    ∧ profileSelectAllowed [pEmployee, pEmployee2] pEmployee.user_id pEmployee2
      = true := by
  decide

/-- C8 amended: every principal may read every profile row (the public
SELECT policy grants unconditionally); updates remain restricted —
one's own row is always updatable, another identity's row only under an
admin grant. -/
theorem c8_amended :
    (∀ (profiles : List Profile) (uid : Nat) (q : Profile),
      profileSelectAllowed profiles uid q = true)
    ∧ (∀ (profiles : List Profile) (uid : Nat) (q : Profile), uid = q.user_id →
      profileUpdateAllowed profiles uid q = true)
    ∧ (∀ (profiles : List Profile) (uid : Nat) (q : Profile), uid ≠ q.user_id →
      (∀ p, p ∈ profiles → p.user_id = uid → p.role ≠ Role.admin) →
      profileUpdateAllowed profiles uid q = false)
    ∧ (∀ (profiles : List Profile) (uid : Nat) (q : Profile),
      adminGrant profiles uid = true →
      profileUpdateAllowed profiles uid q = true) := by
  refine ⟨?_, ?_, ?_, ?_⟩
  · intro profiles uid q
    simp [profileSelectAllowed, public_profiles_are_viewable_by_everyone]
  · intro profiles uid q h
    simp [profileUpdateAllowed, users_can_update_their_own_profile, h]
  · intro profiles uid q hne hnoadm
    have ha := adminGrant_eq_false hnoadm
    simp [profileUpdateAllowed, users_can_update_their_own_profile,
      admins_can_update_all_profiles, hne, ha]
  · intro profiles uid q ha
    simp [profileUpdateAllowed, admins_can_update_all_profiles, ha]

/-- Witness for c8_amended: concrete instantiations of the own-row
update grant and of the non-admin denial on a foreign row. -/
theorem c8_amended_witness :
    ((20 : Nat) = pEmployee.user_id
     ∧ profileUpdateAllowed [pEmployee] 20 pEmployee = true)
    ∧ ((20 : Nat) ≠ pEmployee2.user_id
       ∧ (∀ p, p ∈ [pEmployee] → p.user_id = 20 → p.role ≠ Role.admin)
       ∧ profileUpdateAllowed [pEmployee] 20 pEmployee2 = false) := by
  have hne : (20 : Nat) ≠ pEmployee2.user_id := by decide
  have hnoadm : ∀ p, p ∈ [pEmployee] → p.user_id = 20 → p.role ≠ Role.admin := by
    intro p hp _
    rw [List.mem_singleton.mp hp]
    decide
  exact ⟨⟨rfl, c8_amended.2.1 [pEmployee] 20 pEmployee rfl⟩,
    hne, hnoadm, c8_amended.2.2.1 [pEmployee] 20 pEmployee2 hne hnoadm⟩

/-- C9 fails on the code: `handleStatusUpdate` applies the paid status
to a pending claim with no payment data — the claim ends up paid with
no payment method and no paid-date, instead of the call being
rejected. -/
theorem c9_counterexample :
    claimPending.status = CStatus.pending
    ∧ (handleStatusUpdate [claimPending] 1 CStatus.paid 10 100 none).map
        ClaimRec.status = [CStatus.paid]
    ∧ (handleStatusUpdate [claimPending] 1 CStatus.paid 10 100 none).map
        ClaimRec.payment_method = [none]
    ∧ (handleStatusUpdate [claimPending] 1 CStatus.paid 10 100 none).map
        ClaimRec.paid_date = [none] := by
  decide

/-- C9 amended: the code never rejects a paid transition.  The Mark-Paid
action is rendered only for an admin viewing an approved claim and it
always supplies payment data; when payment data is supplied,
`handleStatusUpdate` sets the paid status, the paid-date, the payment
method and the payment reference atomically in one update — but the
same function applied without payment data, or to a claim in any other
status, still applies the paid status (with no payment fields) rather
than failing. -/
theorem c9_amended :
    (∀ (role : Role) (c : ClaimRec),
      markPaidVisible role c = true ↔ (role = Role.admin ∧ c.status = CStatus.approved))
    ∧ (∀ (cs : List ClaimRec) (cid uid today : Nat) (pd : PaymentData) (c0 : ClaimRec),
      c0 ∈ cs → c0.id = cid →
      ({ c0 with status := CStatus.paid,
                 reviewed_date := some today,
                 reviewed_by := some uid,
                 paid_date := some today,
                 payment_method := some pd.method,
                 payment_reference := some pd.reference } : ClaimRec)
        ∈ handleStatusUpdate cs cid CStatus.paid uid today (some pd))
    ∧ (∀ (cs : List ClaimRec) (cid uid today : Nat) (c0 : ClaimRec),
      c0 ∈ cs → c0.id = cid →
      ({ c0 with status := CStatus.paid,
                 reviewed_date := some today,
                 reviewed_by := some uid } : ClaimRec)
        ∈ handleStatusUpdate cs cid CStatus.paid uid today none) := by
  refine ⟨?_, ?_, ?_⟩
  · intro role c
    simp [markPaidVisible, Bool.and_eq_true, beq_iff_eq]
  · intro cs cid uid today pd c0 hc0 hcid
    apply List.mem_map.mpr
    refine ⟨c0, hc0, ?_⟩
    subst hcid
    simp only [beq_self_eq_true, if_true]
  · intro cs cid uid today c0 hc0 hcid
    apply List.mem_map.mpr
    refine ⟨c0, hc0, ?_⟩
    subst hcid
    simp only [beq_self_eq_true, if_true]

/-- Witness for c9_amended: the Mark-Paid call on the concrete approved
claim, with payment data, lands the fully-populated paid row in the
result. -/
theorem c9_amended_witness :
    ({ claimPending with status := CStatus.approved } : ClaimRec)
      ∈ [({ claimPending with status := CStatus.approved } : ClaimRec)]
    ∧ ({ claimPending with status := CStatus.approved } : ClaimRec).id = 1
    ∧ ({ claimPending with status := CStatus.paid,
                           reviewed_date := some 100,
                           reviewed_by := some 10,
                           paid_date := some 100,
                           payment_method := some "bank_transfer",
                           payment_reference := some "TXN-1" } : ClaimRec)
      ∈ handleStatusUpdate [({ claimPending with status := CStatus.approved } : ClaimRec)]
          1 CStatus.paid 10 100 (some (PaymentData.mk "bank_transfer" "TXN-1")) := by
  have hm : ({ claimPending with status := CStatus.approved } : ClaimRec)
      ∈ [({ claimPending with status := CStatus.approved } : ClaimRec)] :=
    List.mem_singleton.mpr rfl
  exact ⟨hm, rfl,
    c9_amended.2.1 [({ claimPending with status := CStatus.approved } : ClaimRec)]
      1 10 100 (PaymentData.mk "bank_transfer" "TXN-1")
      ({ claimPending with status := CStatus.approved } : ClaimRec) hm rfl⟩

/-- After one signup, a profile row for the identity exists, whichever
branch ran. -/
lemma handle_new_user_any (profiles : List Profile) (u : NewUser) (fid now : Nat) :
    (handle_new_user profiles u fid now).any (fun p => p.user_id == u.id) = true := by
  unfold handle_new_user
  by_cases h : profiles.any (fun p => p.user_id == u.id) = true
  · rw [if_pos h]
    exact h
  · rw [if_neg h, List.any_append]
    simp

/-- C10: the signup trigger is idempotent — when a profile row for the
identity already exists, `ON CONFLICT (user_id) DO NOTHING` leaves the
table exactly as it was (role included) and the function completes
without error (it is total); running the trigger twice equals running
it once. -/
theorem c10_signup_idempotent :
    (∀ (profiles : List Profile) (u : NewUser) (fid now : Nat),
      (∃ p, p ∈ profiles ∧ p.user_id = u.id) →
      handle_new_user profiles u fid now = profiles)
    ∧ (∀ (profiles : List Profile) (u : NewUser) (fid now fid2 now2 : Nat),
      handle_new_user (handle_new_user profiles u fid now) u fid2 now2
        = handle_new_user profiles u fid now) := by
  have hbase : ∀ (profiles : List Profile) (u : NewUser),
      (∃ p, p ∈ profiles ∧ p.user_id = u.id) →
      profiles.any (fun p => p.user_id == u.id) = true := by
    intro profiles u hex
    obtain ⟨p, hp, hpu⟩ := hex
    exact List.any_eq_true.mpr ⟨p, hp, by simp [hpu]⟩
  constructor
  · intro profiles u fid now hex
    unfold handle_new_user
    rw [if_pos (hbase profiles u hex)]
  · intro profiles u fid now fid2 now2
    have h2 := handle_new_user_any profiles u fid now
    set inner := handle_new_user profiles u fid now with hin
    unfold handle_new_user
    rw [if_pos h2]

/-- Witness for c10_signup_idempotent: a second signup for identity 7,
which already has the profile row `dupA`, changes nothing. -/
theorem c10_signup_idempotent_witness :
    (∃ p, p ∈ [dupA] ∧ p.user_id = uSample.id)
    ∧ handle_new_user [dupA] uSample 9 50 = [dupA] := by
  have hex : ∃ p, p ∈ [dupA] ∧ p.user_id = uSample.id :=
    ⟨dupA, List.mem_singleton.mpr rfl, rfl⟩
  exact ⟨hex, c10_signup_idempotent.1 [dupA] uSample 9 50 hex⟩

/-- Every nonempty list of profiles has a member of maximal id. -/
lemma exists_max_id : ∀ (g : List Profile), g ≠ [] →
    ∃ m, m ∈ g ∧ ∀ q, q ∈ g → q.id ≤ m.id := by
  intro g
  induction g with
  | nil =>
    intro h
    exact absurd rfl h
  | cons a t ih =>
    intro _
    by_cases hte : t = []
    · subst hte
      refine ⟨a, List.mem_singleton.mpr rfl, ?_⟩
      intro q hq
      rw [List.mem_singleton.mp hq]
    · obtain ⟨m, hm, hmax⟩ := ih hte
      by_cases hle : a.id ≤ m.id
      · refine ⟨m, List.mem_cons_of_mem _ hm, ?_⟩
        intro q hq
        rcases List.mem_cons.mp hq with h | h
        · rw [h]
          exact hle
        · exact hmax q h
      · refine ⟨a, List.mem_cons_self _ _, ?_⟩
        intro q hq
        rcases List.mem_cons.mp hq with h | h
        · rw [h]
        · exact Nat.le_trans (hmax q h) (Nat.le_of_lt (Nat.lt_of_not_le hle))

/-- The cleanup DELETE keeps a row iff no row of the same identity has
a strictly greater id. -/
lemma cleanup_keep_iff (ps : List Profile) (p1 : Profile) :
    (! ps.any (fun p2 => p2.user_id == p1.user_id && p1.id < p2.id)) = true
      ↔ ∀ p2, p2 ∈ ps → p2.user_id = p1.user_id → p2.id ≤ p1.id := by
  rw [Bool.not_eq_true']
  rw [List.any_eq_false]
  constructor
  · intro h p2 hp2 hu
    have h2 := h p2 hp2
    simp [hu] at h2
    exact h2
  · intro h p2 hp2
    simp only [Bool.and_eq_true, beq_iff_eq, decide_eq_true_eq, not_and]
    intro hu
    exact Nat.not_lt.mpr (h p2 hp2 hu)

lemma length_filter_key (k : Nat) : ∀ (l : List Profile),
    (l.filter (fun p => p.id == k)).length
      = ((l.map Profile.id).filter (fun i => i == k)).length := by
  intro l
  induction l with
  | nil => rfl
  | cons a t ih =>
    by_cases h : (a.id == k) = true
    · simp [List.filter_cons, h, ih]
    · have hf : (a.id == k) = false := Bool.eq_false_iff.mpr h
      simp [List.filter_cons, hf, ih]

/-- A filter whose predicate, on members, picks exactly the rows of
maximal id keeps exactly one row when ids are distinct. -/
lemma filter_keep_singleton (g : List Profile)
    (hnd : (g.map Profile.id).Nodup) (hne : g ≠ [])
    (P : Profile → Bool)
    (hP : ∀ p, p ∈ g → (P p = true ↔ ∀ q, q ∈ g → q.id ≤ p.id)) :
    (g.filter P).length = 1 := by
  obtain ⟨m, hm, hmax⟩ := exists_max_id g hne
  have hcong : ∀ p ∈ g, P p = (p.id == m.id) := by
    intro p hp
    by_cases hPp : P p = true
    · rw [hPp]
      have hple : p.id ≤ m.id := hmax p hp
      have hmge : m.id ≤ p.id := (hP p hp).mp hPp m hm
      have heq : p.id = m.id := Nat.le_antisymm hple hmge
      simp [heq]
    · have hPf : P p = false := Bool.eq_false_iff.mpr hPp
      rw [hPf]
      by_cases heq : p.id = m.id
      · exfalso
        apply hPp
        apply (hP p hp).mpr
        intro q hq
        rw [heq]
        exact hmax q hq
      · simp [heq]
  rw [List.filter_congr hcong, length_filter_key m.id g,
    ← List.countP_eq_length_filter]
  have hmem : m.id ∈ g.map Profile.id := List.mem_map_of_mem Profile.id hm
  exact List.count_eq_one_of_mem hnd hmem

/-- C7 fails on the code: with two duplicate rows for identity 7 where
the earlier-created one has the smaller id, the cleanup keeps the
later-created row (the DELETE removes every row dominated by a greater
id, so the survivor is the max-id row, not the earliest-created). -/
theorem c7_counterexample :
    dupA.user_id = dupB.user_id
    ∧ dupA.created_at < dupB.created_at
    ∧ cleanupDuplicateProfiles [dupA, dupB] = [dupB] := by
  decide

/-- C7 amended: for every identity present in the table, the cleanup
pass deterministically keeps exactly one of its rows — the one with the
greatest id (ids being primary keys, hence distinct); the kept row need
not be the earliest-created one. -/
theorem c7_amended :
    ∀ (ps : List Profile) (u : Nat),
      (ps.map Profile.id).Nodup →
      (∃ p, p ∈ ps ∧ p.user_id = u) →
      ((cleanupDuplicateProfiles ps).filter (fun p => p.user_id == u)).length = 1
      ∧ (∀ p, p ∈ (cleanupDuplicateProfiles ps).filter (fun p => p.user_id == u) →
          ∀ q, q ∈ ps → q.user_id = u → q.id ≤ p.id) := by
  intro ps u hnodup hex
  obtain ⟨p0, hp0, hp0u⟩ := hex
  have hswap : (cleanupDuplicateProfiles ps).filter (fun p => p.user_id == u)
      = (ps.filter (fun p => p.user_id == u)).filter
          (fun p1 => ! ps.any (fun p2 => p2.user_id == p1.user_id && p1.id < p2.id)) := by
    unfold cleanupDuplicateProfiles
    rw [List.filter_filter, List.filter_filter]
    apply List.filter_congr
    intro a _
    exact Bool.and_comm _ _
  have hgmem : p0 ∈ ps.filter (fun p => p.user_id == u) :=
    List.mem_filter.mpr ⟨hp0, by simp [hp0u]⟩
  have hgne : ps.filter (fun p => p.user_id == u) ≠ [] :=
    List.ne_nil_of_mem hgmem
  have hgnd : ((ps.filter (fun p => p.user_id == u)).map Profile.id).Nodup := by
    apply List.Nodup.sublist _ hnodup
    exact List.Sublist.map Profile.id (List.filter_sublist ps)
  have hmemg : ∀ q, q ∈ ps.filter (fun p => p.user_id == u)
      ↔ (q ∈ ps ∧ q.user_id = u) := by
    intro q
    rw [List.mem_filter]
    simp
  have hP : ∀ p, p ∈ ps.filter (fun p => p.user_id == u) →
      ((! ps.any (fun p2 => p2.user_id == p.user_id && p.id < p2.id)) = true
        ↔ ∀ q, q ∈ ps.filter (fun p => p.user_id == u) → q.id ≤ p.id) := by
    intro p hp
    have hpu : p.user_id = u := ((hmemg p).mp hp).2
    rw [cleanup_keep_iff]
    constructor
    · intro h q hq
      have hq2 := (hmemg q).mp hq
      exact h q hq2.1 (by rw [hq2.2, hpu])
    · intro h p2 hp2 hu2
      exact h p2 ((hmemg p2).mpr ⟨hp2, by rw [hu2, hpu]⟩)
  constructor
  · rw [hswap]
    exact filter_keep_singleton (ps.filter (fun p => p.user_id == u)) hgnd hgne _ hP
  · intro p hpmem q hq hqu
    rw [hswap] at hpmem
    have hpg := List.mem_filter.mp hpmem
    have hkeep := (cleanup_keep_iff ps p).mp hpg.2
    have hpu : p.user_id = u := ((hmemg p).mp hpg.1).2
    exact hkeep q hq (by rw [hqu, hpu])

/-- Witness for c7_amended: the duplicate pair for identity 7 — exactly
one survivor, and it dominates both original rows by id. -/
theorem c7_amended_witness :
    (([dupA, dupB].map Profile.id).Nodup
     ∧ (∃ p, p ∈ [dupA, dupB] ∧ p.user_id = 7))
    ∧ (((cleanupDuplicateProfiles [dupA, dupB]).filter
          (fun p => p.user_id == 7)).length = 1
       ∧ ∀ p, p ∈ (cleanupDuplicateProfiles [dupA, dupB]).filter
            (fun p => p.user_id == 7) →
          ∀ q, q ∈ [dupA, dupB] → q.user_id = 7 → q.id ≤ p.id) := by
  have hnd : ([dupA, dupB].map Profile.id).Nodup := by decide
  have hex : ∃ p, p ∈ [dupA, dupB] ∧ p.user_id = 7 := ⟨dupA, by simp, rfl⟩
  exact ⟨⟨hnd, hex⟩, c7_amended [dupA, dupB] 7 hnd hex⟩

/-- Witness for c3_commission_rounding: the trigger firing on the
concrete 1000.00-at-5.00-percent revenue. -/
theorem c3_commission_rounding_witness :
    revPending.status = RStatus.pending
    ∧ revApproved.status = RStatus.approved
    ∧ ∃ c, (handle_revenue_approval revPending revApproved).2 = some c
        ∧ c.revenue_id = revApproved.id
        ∧ (c.commission_amount : ℤ)
            = roundHalfUp ((revApproved.amount * revApproved.commission_rate : ℚ) / 10000) :=
  ⟨rfl, rfl, c3_commission_rounding.1 revPending revApproved rfl rfl⟩

end AccountsForge
